import Mathlib

/-!
Verification of the detector syncer core (`signalfx_detector_syncer/syncer.py`).

The Python source is shallowly embedded below:

* `Value` models the loose JSON/YAML documents the loaders produce
  (dicts are association lists in insertion order, as for Python 3.7+ dicts);
* fallible Python code is embedded as `Except PyErr`, keeping the distinction
  between `KeyError`, `ValueError`, `TypeError`, `AttributeError` and
  `IndexError` visible;
* the external parsers (`json.loads`, `yaml.load`) are parameters of type
  `String → Option Value`;
* file system data (file contents, mtime) are explicit arguments;
* calls made on the SignalFx client are reified as a `ClientCall` trace.

Python `set` iteration order is unspecified; where the source iterates over a
set (`by_path` in `load_from_signalfx`, and the `new`/`common`/`removed` path
sets in `sync`), the embedding iterates in the underlying list order and the
theorems only assert order-insensitive facts (or carry hypotheses that make
the order irrelevant).
-/

namespace DetectorSyncer

/-- A Python value as produced by `json.loads` / `yaml.load`: `None`, booleans,
integers, strings, lists and (insertion-ordered) dicts.  Floats are not needed
by any code path under verification. -/
inductive Value where
  | none : Value
  | bool : Bool → Value
  | int : Int → Value
  | str : String → Value
  | list : List Value → Value
  | dict : List (String × Value) → Value

/-- The Python exceptions the embedded code can raise. -/
inductive PyErr where
  | keyError : String → PyErr
  | valueError : String → PyErr
  | typeError : PyErr
  | attributeError : PyErr
  | indexError : PyErr
  | parseError : PyErr

/-- `d[k]` lookup on a dict's entry list: first entry with the key wins. -/
def dictGet (kvs : List (String × Value)) (k : String) : Option Value :=
  match kvs with
  | [] => Option.none
  | (k', v) :: rest => if k' = k then Option.some v else dictGet rest k

/-- `d[k] = v` on a dict's entry list: an existing key keeps its position and
gets the new value, a new key is appended (Python dict semantics). -/
def dictSet (kvs : List (String × Value)) (k : String) (v : Value) :
    List (String × Value) :=
  match kvs with
  | [] => [(k, v)]
  | (k', v') :: rest =>
    if k' = k then (k', v) :: rest else (k', v') :: dictSet rest k v

/-- Python truthiness of a `Value` (`bool(v)`). -/
def truthy : Value → Bool
  | Value.none => false
  | Value.bool b => b
  | Value.int n => n != 0
  | Value.str s => s != ("")
  | Value.list xs => !xs.isEmpty
  | Value.dict kvs => !kvs.isEmpty

/-- `v[k]`: subscript on a general value; `KeyError` on a dict without the key,
`TypeError` when the value is not a dict. -/
def pySubscript (v : Value) (k : String) : Except PyErr Value :=
  match v with
  | Value.dict kvs =>
    match dictGet kvs k with
    | Option.some x => Except.ok x
    | Option.none => Except.error (PyErr.keyError k)
  | _ => Except.error PyErr.typeError

/-- `v.get(k, dflt)`: only dicts have `.get` (`AttributeError` otherwise). -/
def pyGetD (v : Value) (k : String) (dflt : Value) : Except PyErr Value :=
  match v with
  | Value.dict kvs => Except.ok ((dictGet kvs k).getD dflt)
  | _ => Except.error PyErr.typeError

/-- `v[k] = x`: item assignment; `TypeError` on non-dicts. -/
def pySetItem (v : Value) (k : String) (x : Value) : Except PyErr Value :=
  match v with
  | Value.dict kvs => Except.ok (Value.dict (dictSet kvs k x))
  | _ => Except.error PyErr.typeError

/-- `type(rules) in [list, dict]` (syncer.py:236). -/
def rulesShapeOk : Value → Bool
  | Value.list _ => true
  | Value.dict _ => true
  | _ => false

/-- Does the spec's `ValidationError` cover this error?  The source raises
`ValueError` for every explicit validation failure (syncer.py:233,235,237). -/
def isValidationError : PyErr → Bool
  | PyErr.valueError _ => true
  | _ => false

/-- `_DetectorLoader.validate` (syncer.py:231-238):
`detector['name']` / `detector['description']` raise `KeyError` when absent;
a falsy value raises `ValueError`; `rules` defaults to `[]` and must be a
list or a dict. -/
def validate (detector : Value) : Except PyErr Value :=
  match pySubscript detector ("name") with
  | Except.error e => Except.error e
  | Except.ok name =>
    if truthy name = false then
      Except.error (PyErr.valueError ("missing detector name"))
    else
      match pySubscript detector ("description") with
      | Except.error e => Except.error e
      | Except.ok desc =>
        if truthy desc = false then
          Except.error (PyErr.valueError ("detector should have a description"))
        else
          match pyGetD detector ("rules") (Value.list []) with
          | Except.error e => Except.error e
          | Except.ok rules =>
            if rulesShapeOk rules = false then
              Except.error (PyErr.valueError ("invalid rules object"))
            else Except.ok detector

/-- One step of the rules-mapping coercion (syncer.py:224-226):
`rule['detectLabel'] = label` requires the rule to be a dict and overwrites
any existing `detectLabel` entry. -/
def coerceRule (label : String) (rule : Value) : Except PyErr Value :=
  match rule with
  | Value.dict rkvs =>
    Except.ok (Value.dict (dictSet rkvs ("detectLabel") (Value.str label)))
  | _ => Except.error PyErr.typeError

/-- The `rules_list` built by iterating `rules.items()` in insertion order. -/
def coerceRuleList : List (String × Value) → Except PyErr (List Value)
  | [] => Except.ok []
  | (label, rule) :: rest =>
    match coerceRule label rule with
    | Except.error e => Except.error e
    | Except.ok r =>
      match coerceRuleList rest with
      | Except.error e => Except.error e
      | Except.ok rs => Except.ok (r :: rs)

/-- The rules coercion in `_DetectorLoader.load` (syncer.py:221-227): when
`detector.get('rules', [])` is a dict, replace it by the coerced list;
otherwise the detector is returned unchanged. -/
def coerceRules (detector : Value) : Except PyErr Value :=
  match pyGetD detector ("rules") (Value.list []) with
  | Except.error e => Except.error e
  | Except.ok rules =>
    match rules with
    | Value.dict rs =>
      match coerceRuleList rs with
      | Except.error e => Except.error e
      | Except.ok lst => pySetItem detector ("rules") (Value.list lst)
    | _ => Except.ok detector

/-- `_DetectorLoader.load` after `_load` has produced a parsed value
(syncer.py:216-229): validate, then coerce the rules. -/
def loaderLoad (parsed : Value) : Except PyErr Value :=
  match validate parsed with
  | Except.error e => Except.error e
  | Except.ok d => coerceRules d

/-- Python `str.strip` whitespace class (space, tab, newline, CR, VT, FF). -/
def pyIsSpace (c : Char) : Bool :=
  c == (' ') || c == ('\t') || c == ('\n') || c == ('\r') ||
    c == ('\x0b') || c == ('\x0c')

/-- Python `str.strip()` on a character list. -/
def pyStrip (s : List Char) : List Char :=
  ((s.dropWhile pyIsSpace).reverse.dropWhile pyIsSpace).reverse

/-- Bool test that `pre` is a prefix of `s`. -/
def takeEq (pre s : List Char) : Bool :=
  s.take pre.length == pre

/-- Python `s.startswith(t)`. -/
def pyStartsWith (s t : String) : Bool :=
  takeEq t.data s.data

/-- First segment and remaining segments of Python `s.split('from:')` — the
only `str.split` in the source (syncer.py:156) — scanning left to right for
non-overlapping occurrences of the separator. -/
def splitFromAux : List Char → List Char × List (List Char)
  | [] => ([], [])
  | 'f' :: 'r' :: 'o' :: 'm' :: ':' :: rest =>
    let p := splitFromAux rest
    ([], p.1 :: p.2)
  | c :: rest =>
    let p := splitFromAux rest
    (c :: p.1, p.2)

/-- Python `s.split('from:')`. -/
def pySplitFrom (s : String) : List String :=
  let p := splitFromAux s.data
  String.mk p.1 :: p.2.map String.mk

/-- Does `re.compile(r'^---$', re.MULTILINE)` match at the head of `s`?
Three dashes at a line start, followed by a newline or the end of input. -/
def sepAt (s : List Char) : Bool :=
  decide (s.take 3 = ['-', '-', '-']) &&
    decide ((s.drop 3).headD ('\n') = ('\n'))

/-- First segment and remaining segments of `re.split(r'^---$', s)` under
`re.MULTILINE` (the `_YamlDetectorLoader._SPLITTER`, syncer.py:252).
`b` records whether the scan position is at a line start. -/
def sda (b : Bool) (s : List Char) : List Char × List (List Char) :=
  match s with
  | [] => ([], [])
  | c :: rest =>
    if b && sepAt (c :: rest) then
      -- a separator match spans `c` and the next two characters; `sepAt`
      -- guarantees `rest` has at least two characters, so the fallback
      -- branch below is unreachable
      match rest with
      | _ :: _ :: rest3 =>
        let p := sda false rest3
        ([], p.1 :: p.2)
      | _ => ([], [])
    else
      let p := sda (c == ('\n')) rest
      (c :: p.1, p.2)

/-- The line-start flag after scanning `d`, starting from flag `b`. -/
def flagAfter (b : Bool) : List Char → Bool
  | [] => b
  | c :: t => flagAfter (c == ('\n')) t

/-- No `^---$` separator match begins inside `d`, scanning with initial
line-start flag `b`, under the convention that the character following `d`
(if any) is a newline. -/
def dashFree (b : Bool) : List Char → Bool
  | [] => true
  | c :: rest => !(b && sepAt (c :: rest)) && dashFree (c == ('\n')) rest

/-- `docs` of `_YamlDetectorLoader._load` (syncer.py:256-257):
`list(map(str.strip, filter(None, SPLITTER.split(contents))))` — empty raw
segments are dropped before stripping. -/
def pyDocs (contents : String) : List String :=
  let p := sda true contents.data
  ((p.1 :: p.2).filter (fun seg => !seg.isEmpty)).map
    (fun seg => String.mk (pyStrip seg))

/-- `_JsonDetectorLoader._load` (syncer.py:244-246): `json.loads(contents)`,
with the parser passed in as `parse`. -/
def jsonRawLoad (parse : String → Option Value) (contents : String) :
    Except PyErr Value :=
  match parse contents with
  | Option.some v => Except.ok v
  | Option.none => Except.error PyErr.parseError

/-- `_YamlDetectorLoader._load` (syncer.py:254-260): split the two-document
content, parse the first document (`yaml.load`, passed in as `parse`), then
assign `detector['programText'] = docs[1]`. -/
def yamlRawLoad (parse : String → Option Value) (contents : String) :
    Except PyErr Value :=
  let docs := pyDocs contents
  match docs.get? 0 with
  | Option.none => Except.error PyErr.indexError
  | Option.some d0 =>
    match parse d0 with
    | Option.none => Except.error PyErr.parseError
    | Option.some det =>
      match docs.get? 1 with
      | Option.none => Except.error PyErr.indexError
      | Option.some d1 => pySetItem det ("programText") (Value.str d1)

/-- `_JsonDetectorLoader().load(path, contents)`. -/
def jsonLoad (parse : String → Option Value) (contents : String) :
    Except PyErr Value :=
  match jsonRawLoad parse contents with
  | Except.error e => Except.error e
  | Except.ok v => loaderLoad v

/-- `_YamlDetectorLoader().load(path, contents)`. -/
def yamlLoad (parse : String → Option Value) (contents : String) :
    Except PyErr Value :=
  match yamlRawLoad parse contents with
  | Except.error e => Except.error e
  | Except.ok v => loaderLoad v

/-- The format dispatch of `Syncer._load_detector` (syncer.py:116-121). -/
def dispatchLoad (jsonParse yamlParse : String → Option Value)
    (contents : String) : Except PyErr Value :=
  if pyStartsWith contents ("\x7b") then jsonLoad jsonParse contents
  else if pyStartsWith contents ("---\n") then yamlLoad yamlParse contents
  else Except.error (PyErr.valueError ("unknown detector format"))

/-- `Syncer._SYNCER_MARKER_TAG` (syncer.py:21). -/
def syncerMarkerTag : String := "signalfx-detector-syncer"

/-- `Syncer._FROM_TAG_PREFIX` (syncer.py:22). -/
def fromTagMarker : String := "from:"

/-- `Syncer._SCOPE_TAG_PREFIX` (syncer.py:23). -/
def scopeTagMarker : String := "scope:"

/-- `self._tags` computed in `Syncer.__init__` (syncer.py:30-32). -/
def syncerTags : Option String → List String
  | Option.none => [syncerMarkerTag]
  | Option.some s => [syncerMarkerTag, scopeTagMarker ++ s]

/-- `Syncer._load_detector` (syncer.py:102-134) on the file's contents and
its last-modified time.  The `int(st_mtime * 1000)` conversion is modelled by
taking the modification time directly in integer milliseconds. -/
def loadDetector (scope : Option String)
    (jsonParse yamlParse : String → Option Value)
    (path contents : String) (mtimeMs : Int) : Except PyErr Value :=
  match dispatchLoad jsonParse yamlParse contents with
  | Except.error e => Except.error e
  | Except.ok d =>
    match pySetItem d ("lastUpdated") (Value.int mtimeMs) with
    | Except.error e => Except.error e
    | Except.ok d1 =>
      match pyGetD d1 ("tags") (Value.list []) with
      | Except.error e => Except.error e
      | Except.ok tagsv =>
        match tagsv with
        | Value.list ts =>
          pySetItem d1 ("tags")
            (Value.list (ts ++ (syncerTags scope).map Value.str ++
              [Value.str (fromTagMarker ++ path)]))
        | _ => Except.error PyErr.typeError

/-- `tag.split(self._FROM_TAG_PREFIX)[1]` (syncer.py:156); only evaluated
under the `startswith` guard, where the split always has a second element. -/
def extractFrom (t : String) : String :=
  (pySplitFrom t).getD 1 ("")

/-- The tag loop of `by_path` (syncer.py:150-156).  `unscoped` is
`not self._scope`; the accumulator is the current `path` variable; the outer
`Option` is `none` when the loop hit the early `return None`. -/
def byPathGo (unscoped : Bool) :
    List String → Option String → Option (Option String)
  | [], path => Option.some path
  | t :: rest, path =>
    if unscoped && pyStartsWith t scopeTagMarker then Option.none
    else
      byPathGo unscoped rest
        (if pyStartsWith t fromTagMarker then Option.some (extractFrom t)
         else path)

/-- `by_path` (syncer.py:144-158) reduced to the detector's tag list: returns
the reconciliation key when the detector is kept, `none` when it is dropped
(`return (path, detector) if path else None`: both `None` and `''` drop it).
The source iterates `set(detector['tags'])`; the embedding iterates the tag
list in order, which is one of the possible set orders. -/
def byPath (scope : Option String) (tags : List String) : Option String :=
  match byPathGo scope.isNone tags Option.none with
  | Option.some (Option.some p) =>
    if p = ("") then Option.none else Option.some p
  | _ => Option.none

/-- The reconciliation-relevant fields of a detector dict: the remote `id`,
the `lastUpdated` timestamp, and the rest of the payload, opaque here. -/
structure Det where
  id : String
  lastUpdated : Int
  data : Value

/-- A remote detector as returned by `client.get_detectors`: its tag list
plus its payload. -/
structure SfxDet where
  tags : List String
  det : Det

/-- The `(path, detector)` pairs surviving `filter(None, map(by_path, ...))`
in `load_from_signalfx` (syncer.py:160-162). -/
def listOwnedPairs (scope : Option String) (dets : List SfxDet) :
    List (String × SfxDet) :=
  dets.filterMap (fun d => (byPath scope d.tags).map (fun p => (p, d)))

/-- One insertion of `dict(pairs)`: an existing key keeps its position and
gets the new value, a new key is appended (Python dict semantics). -/
def pyDictInsert : List (String × SfxDet) → String → SfxDet →
    List (String × SfxDet)
  | [], k, v => [(k, v)]
  | (k', v') :: rest, k, v =>
    if k' = k then (k', v) :: rest else (k', v') :: pyDictInsert rest k v

/-- `Syncer.load_from_signalfx` (syncer.py:136-162) as a function of the list
the client returned: `dict(filter(None, map(by_path, ...)))`. -/
def loadFromSignalFx (scope : Option String) (dets : List SfxDet) :
    List (String × SfxDet) :=
  (listOwnedPairs scope dets).foldl
    (fun acc kv => pyDictInsert acc kv.1 kv.2) []

/-- Association-list lookup used to read `from_files[path]` /
`from_signalfx[path]`. -/
def alookup (p : String) : List (String × Det) → Option Det
  | [] => Option.none
  | (k, d) :: rest => if k = p then Option.some d else alookup p rest

/-- `m[p]` with a junk default; `sync` only uses it at keys known present. -/
def lu (m : List (String × Det)) (p : String) : Det :=
  (alookup p m).getD ⟨"", 0, Value.none⟩

/-- The key list of a local/remote detector map. -/
def keysOf (m : List (String × Det)) : List String :=
  m.map Prod.fst

/-- `new = from_files_paths.difference(from_signalfx_paths)` (syncer.py:56). -/
def newPaths (l r : List (String × Det)) : List String :=
  (keysOf l).filter (fun p => !decide (p ∈ keysOf r))

/-- `common = from_files_paths.intersection(from_signalfx_paths)`
(syncer.py:57). -/
def commonPaths (l r : List (String × Det)) : List String :=
  (keysOf l).filter (fun p => decide (p ∈ keysOf r))

/-- `removed = from_signalfx_paths.difference(from_files_paths)`
(syncer.py:58). -/
def removedPaths (l r : List (String × Det)) : List String :=
  (keysOf r).filter (fun p => !decide (p ∈ keysOf l))

/-- The `updated` list (syncer.py:61-66): the common paths whose local
`lastUpdated` is strictly greater than the remote one. -/
def updatedPaths (l r : List (String × Det)) : List String :=
  (commonPaths l r).filter
    (fun p => decide ((lu r p).lastUpdated < (lu l p).lastUpdated))

/-- A call made on the SignalFx client during the apply phase. -/
inductive ClientCall where
  | createDetector : Det → ClientCall
  | updateDetector : String → Det → ClientCall
  | deleteDetector : String → ClientCall
  | deleteTag : String → ClientCall
  | validateDetector : Det → ClientCall

/-- `Syncer.create_detector` (syncer.py:164-176) as its client-call trace. -/
def createDetectorCalls (dryRun : Bool) (detector : Det) : List ClientCall :=
  if !dryRun then [ClientCall.createDetector detector]
  else [ClientCall.validateDetector detector]

/-- `Syncer.update_detector` (syncer.py:178-191) as its client-call trace. -/
def updateDetectorCalls (dryRun : Bool) (original detector : Det) :
    List ClientCall :=
  if !dryRun then [ClientCall.updateDetector original.id detector]
  else [ClientCall.validateDetector detector]

/-- `Syncer.remove_detector` (syncer.py:193-207) as its client-call trace. -/
def removeDetectorCalls (dryRun : Bool) (path : String) (detector : Det) :
    List ClientCall :=
  if !dryRun then
    [ClientCall.deleteDetector detector.id,
     ClientCall.deleteTag (fromTagMarker ++ path)]
  else []

/-- The apply phase of `Syncer.sync` (syncer.py:71-76) as its client-call
trace, given the loaded local map `l` and remote map `r`. -/
def syncCalls (dryRun : Bool) (l r : List (String × Det)) : List ClientCall :=
  ((newPaths l r).flatMap (fun p => createDetectorCalls dryRun (lu l p))) ++
  ((updatedPaths l r).flatMap
    (fun p => updateDetectorCalls dryRun (lu r p) (lu l p))) ++
  ((removedPaths l r).flatMap
    (fun p => removeDetectorCalls dryRun p (lu r p)))

/-! ### Helper lemmas -/

theorem alookup_isSome_iff (p : String) (m : List (String × Det)) :
    (∃ d, alookup p m = Option.some d) ↔ p ∈ keysOf m := by
  induction m with
  | nil => simp [alookup, keysOf]
  | cons kv rest ih =>
    obtain ⟨k, d⟩ := kv
    simp only [keysOf, List.map_cons, List.mem_cons]
    by_cases hk : k = p
    · subst hk
      simp [alookup]
    · simp only [alookup, if_neg hk]
      rw [ih]
      simp only [keysOf]
      constructor
      · exact Or.inr
      · rintro (h | h)
        · exact absurd h.symm hk
        · exact h

theorem flatMap_singleton_eq_map {α β : Type} (l : List α) (f : α → β) :
    (l.flatMap fun a => [f a]) = l.map f := by
  induction l with
  | nil => simp
  | cons a rest ih => simp [List.flatMap_cons, ih]

/-! ### Claim C1 — the sync partition -/

/-- Claim C1: `sync` partitions identities as `new` = local keys minus remote
keys, `common` = intersection, `removed` = remote keys minus local keys, and a
common identity is selected as updated iff the local record's `lastUpdated` is
strictly greater than the remote record's (so equal timestamps yield no
update). -/
theorem sync_partition_correct (l r : List (String × Det)) (p : String) :
    (p ∈ newPaths l r ↔ p ∈ keysOf l ∧ ¬ p ∈ keysOf r) ∧
    (p ∈ commonPaths l r ↔ p ∈ keysOf l ∧ p ∈ keysOf r) ∧
    (p ∈ removedPaths l r ↔ p ∈ keysOf r ∧ ¬ p ∈ keysOf l) ∧
    (p ∈ updatedPaths l r ↔ ∃ dl dr,
      alookup p l = Option.some dl ∧ alookup p r = Option.some dr ∧
      dr.lastUpdated < dl.lastUpdated) := by
  refine ⟨?_, ?_, ?_, ?_⟩
  · simp [newPaths, List.mem_filter]
  · simp [commonPaths, List.mem_filter]
  · simp [removedPaths, List.mem_filter]
  · simp only [updatedPaths, List.mem_filter, commonPaths,
      decide_eq_true_eq]
    constructor
    · rintro ⟨⟨hl, hr⟩, hlt⟩
      obtain ⟨dl, hdl⟩ := (alookup_isSome_iff p l).mpr hl
      obtain ⟨dr, hdr⟩ := (alookup_isSome_iff p r).mpr hr
      refine ⟨dl, dr, hdl, hdr, ?_⟩
      simpa [lu, hdl, hdr] using hlt
    · rintro ⟨dl, dr, hdl, hdr, hlt⟩
      refine ⟨⟨?_, ?_⟩, ?_⟩
      · exact (alookup_isSome_iff p l).mp ⟨dl, hdl⟩
      · exact (alookup_isSome_iff p r).mp ⟨dr, hdr⟩
      · simpa [lu, hdl, hdr] using hlt

/-! ### Claim C2 — dry-run effects -/

/-- Claim C2: with `dry_run` set, the apply phase performs only
`validate_detector` calls — one per new or updated detector, carrying exactly
the local payload that a real run would have sent to `create_detector` /
`update_detector` — and performs no client call at all for removed detectors;
in particular it never calls create/update/delete/delete_tag. -/
theorem dry_run_effects (l r : List (String × Det)) :
    syncCalls true l r =
      (newPaths l r ++ updatedPaths l r).map
        (fun p => ClientCall.validateDetector (lu l p)) ∧
    syncCalls false l r =
      ((newPaths l r).map (fun p => ClientCall.createDetector (lu l p))) ++
      ((updatedPaths l r).map
        (fun p => ClientCall.updateDetector (lu r p).id (lu l p))) ++
      ((removedPaths l r).flatMap
        (fun p => [ClientCall.deleteDetector (lu r p).id,
                   ClientCall.deleteTag (fromTagMarker ++ p)])) ∧
    ∀ c ∈ syncCalls true l r,
      (∀ d, c ≠ ClientCall.createDetector d) ∧
      (∀ i d, c ≠ ClientCall.updateDetector i d) ∧
      (∀ i, c ≠ ClientCall.deleteDetector i) ∧
      (∀ t, c ≠ ClientCall.deleteTag t) := by
  have h1 : syncCalls true l r =
      (newPaths l r ++ updatedPaths l r).map
        (fun p => ClientCall.validateDetector (lu l p)) := by
    simp [syncCalls, createDetectorCalls, updateDetectorCalls,
      removeDetectorCalls, flatMap_singleton_eq_map]
  refine ⟨h1, ?_, ?_⟩
  · simp [syncCalls, createDetectorCalls, updateDetectorCalls,
      removeDetectorCalls, flatMap_singleton_eq_map]
  · intro c hc
    rw [h1] at hc
    obtain ⟨p, _, hp⟩ := List.mem_map.mp hc
    subst hp
    refine ⟨?_, ?_, ?_, ?_⟩ <;> intro _ <;> first
      | (intro _ h; cases h)
      | (intro h; cases h)

/-- Witness for C2 at a concrete run: one local detector, empty remote set;
the dry run performs exactly one validate call, which is not a create. -/
theorem dry_run_effects_witness :
    syncCalls true [(("a"), ⟨"", 5, Value.none⟩)] [] =
      [ClientCall.validateDetector ⟨"", 5, Value.none⟩] ∧
    ∀ d, ClientCall.validateDetector (⟨"", 5, Value.none⟩ : Det) ≠
      ClientCall.createDetector d := by
  have h := dry_run_effects [(("a"), ⟨"", 5, Value.none⟩)] []
  constructor
  · rw [h.1]
    rfl
  · have hm : ClientCall.validateDetector (⟨"", 5, Value.none⟩ : Det) ∈
        syncCalls true [(("a"), ⟨"", 5, Value.none⟩)] [] := by
      rw [h.1]
      exact List.mem_singleton.mpr rfl
    exact (h.2.2 _ hm).1

/-! ### Claim C8 — idempotence of a converged state -/

/-- Claim C8: when the remote state is converged — remote identities equal the
local identities and every remote `lastUpdated` is at least the local one — a
re-run of `sync` performs zero create, update and remove operations (its apply
phase makes no client call at all). -/
theorem second_run_no_ops (dryRun : Bool) (l r : List (String × Det))
    (hkeys : ∀ p, p ∈ keysOf l ↔ p ∈ keysOf r)
    (hts : ∀ p dl dr, alookup p l = Option.some dl →
      alookup p r = Option.some dr → dl.lastUpdated ≤ dr.lastUpdated) :
    syncCalls dryRun l r = [] := by
  have hnew : newPaths l r = [] := by
    simp only [newPaths, List.filter_eq_nil_iff]
    intro p hp
    simp [(hkeys p).mp hp]
  have hrem : removedPaths l r = [] := by
    simp only [removedPaths, List.filter_eq_nil_iff]
    intro p hp
    simp [(hkeys p).mpr hp]
  have hupd : updatedPaths l r = [] := by
    simp only [updatedPaths, List.filter_eq_nil_iff, commonPaths,
      List.mem_filter, decide_eq_true_eq]
    rintro p ⟨hl, hr⟩
    obtain ⟨dl, hdl⟩ := (alookup_isSome_iff p l).mpr hl
    obtain ⟨dr, hdr⟩ := (alookup_isSome_iff p r).mpr hr
    simp [lu, hdl, hdr, not_lt]
    exact hts p dl dr hdl hdr
  simp [syncCalls, hnew, hrem, hupd]

/-- Witness for C8: a converged concrete pair of maps yields no calls. -/
theorem second_run_no_ops_witness :
    syncCalls false [(("a"), ⟨"", 5, Value.none⟩)]
      [(("a"), ⟨"r1", 7, Value.none⟩)] = [] := by
  refine second_run_no_ops false _ _ (fun p => Iff.rfl) ?_
  intro p dl dr h1 h2
  by_cases hp : ("a" : String) = p
  · subst hp
    simp [alookup] at h1 h2
    subst h1
    subst h2
    decide
  · simp only [alookup, if_neg hp] at h1
    cases h1

/-! ### Claim C3 — validate -/

/-- Claim C3 counterexample: on a payload with no `name` key the claim says
`validate` raises `ValidationError`, but the code's `detector['name']` access
raises `KeyError`, which is not the error class the validation checks raise
(`ValueError`, syncer.py:233/235/237). -/
theorem validate_missing_name_keyerror :
    validate (Value.dict []) = Except.error (PyErr.keyError ("name")) ∧
    isValidationError (PyErr.keyError ("name")) = false :=
  ⟨rfl, rfl⟩

/-- Claim C3 (amended): `validate` succeeds, returning the detector, iff
`name` is present and truthy, `description` is present and truthy, and
`rules` (defaulting to `[]`) is a list or a dict; a present-but-falsy `name`
or `description` and a mistyped `rules` raise `ValidationError`
(`ValueError`), while an outright missing `name` or `description` raises
`KeyError` instead. -/
theorem validate_characterization (kvs : List (String × Value)) :
    (validate (Value.dict kvs) = Except.ok (Value.dict kvs) ↔
      (∃ v, dictGet kvs ("name") = Option.some v ∧ truthy v = true) ∧
      (∃ w, dictGet kvs ("description") = Option.some w ∧ truthy w = true) ∧
      rulesShapeOk ((dictGet kvs ("rules")).getD (Value.list [])) = true) ∧
    (dictGet kvs ("name") = Option.none →
      validate (Value.dict kvs) = Except.error (PyErr.keyError ("name"))) ∧
    (∀ v, dictGet kvs ("name") = Option.some v → truthy v = false →
      validate (Value.dict kvs) =
        Except.error (PyErr.valueError ("missing detector name"))) ∧
    (∀ v, dictGet kvs ("name") = Option.some v → truthy v = true →
      dictGet kvs ("description") = Option.none →
      validate (Value.dict kvs) =
        Except.error (PyErr.keyError ("description"))) ∧
    (∀ v w, dictGet kvs ("name") = Option.some v → truthy v = true →
      dictGet kvs ("description") = Option.some w → truthy w = false →
      validate (Value.dict kvs) =
        Except.error
          (PyErr.valueError ("detector should have a description"))) ∧
    (∀ v w, dictGet kvs ("name") = Option.some v → truthy v = true →
      dictGet kvs ("description") = Option.some w → truthy w = true →
      rulesShapeOk ((dictGet kvs ("rules")).getD (Value.list [])) = false →
      validate (Value.dict kvs) =
        Except.error (PyErr.valueError ("invalid rules object"))) := by
  refine ⟨?_, ?_, ?_, ?_, ?_, ?_⟩
  · cases hn : dictGet kvs ("name") with
    | none => simp [validate, pySubscript, hn]
    | some v =>
      cases htv : truthy v with
      | false => simp [validate, pySubscript, hn, htv]
      | true =>
        cases hd : dictGet kvs ("description") with
        | none => simp [validate, pySubscript, hn, htv, hd]
        | some w =>
          cases htw : truthy w with
          | false => simp [validate, pySubscript, hn, htv, hd, htw]
          | true =>
            cases hr : rulesShapeOk
                ((dictGet kvs ("rules")).getD (Value.list [])) with
            | false =>
              simp [validate, pySubscript, pyGetD, hn, htv, hd, htw, hr]
            | true =>
              simp [validate, pySubscript, pyGetD, hn, htv, hd, htw, hr]
  · intro hn
    simp [validate, pySubscript, hn]
  · intro v hn htv
    simp [validate, pySubscript, hn, htv]
  · intro v hn htv hd
    simp [validate, pySubscript, hn, htv, hd]
  · intro v w hn htv hd htw
    simp [validate, pySubscript, hn, htv, hd, htw]
  · intro v w hn htv hd htw hr
    simp [validate, pySubscript, pyGetD, hn, htv, hd, htw, hr]

/-- Witness for (amended) C3: a present-but-empty name fails with
`ValueError`, i.e. with the spec's `ValidationError`. -/
theorem validate_characterization_witness :
    validate (Value.dict [(("name"), Value.str (""))]) =
      Except.error (PyErr.valueError ("missing detector name")) :=
  (validate_characterization [(("name"), Value.str (""))]).2.2.1
    (Value.str ("")) rfl rfl

/-! ### Claims C5/C10 — rules-mapping normalization -/

theorem dictGet_dictSet_self (kvs : List (String × Value)) (k : String)
    (v : Value) : dictGet (dictSet kvs k v) k = Option.some v := by
  induction kvs with
  | nil => simp [dictGet, dictSet]
  | cons kv rest ih =>
    obtain ⟨k', v'⟩ := kv
    by_cases hk : k' = k
    · simp [dictGet, dictSet, hk]
    · simp [dictGet, dictSet, hk, ih]

theorem dictGet_dictSet_ne (kvs : List (String × Value)) (k k' : String)
    (v : Value) (h : ¬ k' = k) :
    dictGet (dictSet kvs k' v) k = dictGet kvs k := by
  induction kvs with
  | nil => simp [dictGet, dictSet, h]
  | cons kv rest ih =>
    obtain ⟨k'', v''⟩ := kv
    by_cases hk : k'' = k'
    · subst hk
      simp [dictGet, dictSet, h]
    · simp [dictGet, dictSet, hk, ih]

/-- The label read off a coerced rule (all coerced rules are dicts). -/
def ruleLabel : Value → Option Value
  | Value.dict rkvs => dictGet rkvs ("detectLabel")
  | _ => Option.none

theorem coerceRuleList_ok (rs : List (String × Value))
    (h : ∀ p ∈ rs, ∃ rkvs, p.2 = Value.dict rkvs) :
    ∃ lst, coerceRuleList rs = Except.ok lst ∧
      lst.map ruleLabel = rs.map (fun q => Option.some (Value.str q.1)) := by
  induction rs with
  | nil => exact ⟨[], rfl, rfl⟩
  | cons q rest ih =>
    obtain ⟨label, rule⟩ := q
    obtain ⟨rkvs, hr⟩ := h (label, rule) (List.mem_cons_self _ _)
    obtain ⟨lst, hl, hmap⟩ := ih (fun p hp => h p (List.mem_cons_of_mem _ hp))
    refine ⟨Value.dict (dictSet rkvs ("detectLabel") (Value.str label)) :: lst,
      ?_, ?_⟩
    · simp only [coerceRuleList]
      rw [show rule = Value.dict rkvs from hr]
      simp only [coerceRule, hl]
    · simp [ruleLabel, dictGet_dictSet_self, hmap]

/-- Claim C5: loading a detector whose `rules` field is a label-keyed mapping
of rule dicts yields a `rules` list whose elements carry `detectLabel` equal
to their original mapping key, label for label in insertion order — so the
label set is exactly the key set, with nothing added, dropped or duplicated;
a `rules` field that is already a list is left untouched. -/
theorem rules_mapping_normalized :
    (∀ (kvs rs : List (String × Value)),
      dictGet kvs ("rules") = Option.some (Value.dict rs) →
      (∀ p ∈ rs, ∃ rkvs, p.2 = Value.dict rkvs) →
      ∃ lst : List Value,
        coerceRules (Value.dict kvs) =
          Except.ok (Value.dict (dictSet kvs ("rules") (Value.list lst))) ∧
        lst.map ruleLabel =
          rs.map (fun q => Option.some (Value.str q.1))) ∧
    (∀ (kvs : List (String × Value)) (xs : List Value),
      dictGet kvs ("rules") = Option.some (Value.list xs) →
      coerceRules (Value.dict kvs) = Except.ok (Value.dict kvs)) := by
  constructor
  · intro kvs rs hget hdicts
    obtain ⟨lst, hl, hmap⟩ := coerceRuleList_ok rs hdicts
    refine ⟨lst, ?_, hmap⟩
    simp only [coerceRules, pyGetD, hget, Option.getD_some, hl, pySetItem]
  · intro kvs xs hget
    simp [coerceRules, pyGetD, hget]

/-- Witness for C5: a one-entry mapping is coerced into a one-element list
labelled with the mapping key. -/
theorem rules_mapping_normalized_witness :
    ∃ lst : List Value,
      coerceRules (Value.dict [(("rules"),
          Value.dict [(("a"), Value.dict [])])]) =
        Except.ok (Value.dict (dictSet [(("rules"),
          Value.dict [(("a"), Value.dict [])])] ("rules")
          (Value.list lst))) ∧
      lst.map ruleLabel = [Option.some (Value.str ("a"))] :=
  rules_mapping_normalized.1
    [(("rules"), Value.dict [(("a"), Value.dict [])])]
    [(("a"), Value.dict [])] rfl
    (by
      rintro p hp
      simp only [List.mem_singleton] at hp
      subst hp
      exact ⟨[], rfl⟩)

/-- Claim C10: the mapping-to-list coercion writes the mapping key into the
rule's `detectLabel` even when the rule already has a `detectLabel` entry:
`rule['detectLabel'] = label` overwrites the pre-existing value. -/
theorem detect_label_overwrite (label : String)
    (rkvs : List (String × Value)) (v : Value)
    (_h : dictGet rkvs ("detectLabel") = Option.some v) :
    coerceRule label (Value.dict rkvs) =
      Except.ok
        (Value.dict (dictSet rkvs ("detectLabel") (Value.str label))) ∧
    dictGet (dictSet rkvs ("detectLabel") (Value.str label))
        ("detectLabel") = Option.some (Value.str label) ∧
    coerceRules
        (Value.dict [(("rules"), Value.dict [(label, Value.dict rkvs)])]) =
      Except.ok (Value.dict [(("rules"),
        Value.list
          [Value.dict (dictSet rkvs ("detectLabel") (Value.str label))])]) := by
  refine ⟨rfl, dictGet_dictSet_self rkvs _ _, ?_⟩
  simp [coerceRules, pyGetD, dictGet, coerceRuleList, coerceRule, pySetItem,
    dictSet]

/-- Witness for C10: a rule whose `detectLabel` was `"b"` ends up labelled
with its mapping key `"a"`. -/
theorem detect_label_overwrite_witness :
    dictGet (dictSet [(("detectLabel"), Value.str ("b"))] ("detectLabel")
      (Value.str ("a"))) ("detectLabel") =
      Option.some (Value.str ("a")) :=
  (detect_label_overwrite ("a") [(("detectLabel"), Value.str ("b"))]
    (Value.str ("b")) rfl).2.1

/-! ### Claim C4 — the remote set built by load_from_signalfx -/

/-- The accumulator update of the `by_path` tag loop. -/
def fromStep (a : Option String) (t : String) : Option String :=
  if pyStartsWith t fromTagMarker then Option.some (extractFrom t) else a

theorem byPathGo_eq (u : Bool) (ts : List String) (acc : Option String) :
    byPathGo u ts acc =
      if u = true ∧ ∃ t ∈ ts, pyStartsWith t scopeTagMarker = true then
        Option.none
      else Option.some (ts.foldl fromStep acc) := by
  induction ts generalizing acc with
  | nil => simp [byPathGo]
  | cons t rest ih =>
    by_cases hu : u = true
    · subst hu
      by_cases hs : pyStartsWith t scopeTagMarker = true
      · simp [byPathGo, hs]
      · simp only [byPathGo, Bool.true_and, hs, if_false, ih,
          List.foldl_cons]
        rw [Bool.not_eq_true] at hs
        simp [hs, fromStep]
    · rw [Bool.not_eq_true] at hu
      subst hu
      simp [byPathGo, ih, fromStep]

theorem foldl_fromStep_none (ts : List String) (acc : Option String)
    (h : ∀ t ∈ ts, pyStartsWith t fromTagMarker = false) :
    ts.foldl fromStep acc = acc := by
  induction ts generalizing acc with
  | nil => rfl
  | cons t rest ih =>
    have ht := h t (List.mem_cons_self _ _)
    simp only [List.foldl_cons, fromStep, ht, if_false]
    exact ih acc (fun t' ht' => h t' (List.mem_cons_of_mem _ ht'))

theorem foldl_fromStep_unique (ts : List String) (acc : Option String)
    (t0 : String) (h0 : t0 ∈ ts) (hf : pyStartsWith t0 fromTagMarker = true)
    (huniq : ∀ t ∈ ts, pyStartsWith t fromTagMarker = true →
      extractFrom t = extractFrom t0) :
    ts.foldl fromStep acc = Option.some (extractFrom t0) := by
  induction ts generalizing acc t0 with
  | nil => cases h0
  | cons t rest ih =>
    by_cases hft : pyStartsWith t fromTagMarker = true
    · simp only [List.foldl_cons, fromStep, hft, if_true]
      by_cases hrest : ∃ t1 ∈ rest, pyStartsWith t1 fromTagMarker = true
      · obtain ⟨t1, ht1, hf1⟩ := hrest
        have h1 := ih (Option.some (extractFrom t)) t1 ht1 hf1
          (fun t' ht' hf' => by
            rw [huniq t' (List.mem_cons_of_mem _ ht') hf',
              ← huniq t1 (List.mem_cons_of_mem _ ht1) hf1])
        rw [h1, huniq t1 (List.mem_cons_of_mem _ ht1) hf1]
      · push_neg at hrest
        rw [foldl_fromStep_none rest _ (fun t' ht' => by
          rw [Bool.eq_false_iff]
          exact hrest t' ht')]
        rw [huniq t (List.mem_cons_self _ _) hft]
    · have ht0 : t0 ∈ rest := by
        rcases List.mem_cons.mp h0 with h | h
        · subst h
          exact absurd hf hft
        · exact h
      simp only [List.foldl_cons, fromStep, hft, if_false]
      exact ih acc t0 ht0 hf
        (fun t' ht' hf' => huniq t' (List.mem_cons_of_mem _ ht') hf')

theorem byPath_eq (scope : Option String) (tags : List String) :
    byPath scope tags =
      if scope.isNone = true ∧
          ∃ t ∈ tags, pyStartsWith t scopeTagMarker = true then
        Option.none
      else
        match tags.foldl fromStep Option.none with
        | Option.some q => if q = ("") then Option.none else Option.some q
        | Option.none => Option.none := by
  unfold byPath
  rw [byPathGo_eq]
  by_cases hex : scope.isNone = true ∧
      ∃ t ∈ tags, pyStartsWith t scopeTagMarker = true
  · rw [if_pos hex, if_pos hex]
  · rw [if_neg hex, if_neg hex]
    rcases h : tags.foldl fromStep Option.none with - | q <;> rfl

/-- Claim C4 counterexample: in a run scoped to `teamA`, a remote detector
carrying no scope tag at all is nevertheless included in the remote set
(keyed by its `from:` tag) — `by_path` only checks scope tags when the run is
unscoped, so the claimed scoped-run exclusions do not happen in this code. -/
theorem scoped_run_keeps_unscoped_detector :
    byPath (Option.some ("teamA")) [("from:x.yaml")] =
      Option.some ("x.yaml") ∧
    listOwnedPairs (Option.some ("teamA"))
        [⟨[("from:x.yaml")], ⟨"r1", 0, Value.none⟩⟩] =
      [(("x.yaml"), ⟨[("from:x.yaml")], ⟨"r1", 0, Value.none⟩⟩)] :=
  ⟨rfl, rfl⟩

/-- Claim C4 (amended): a remote detector is included in the set built by
`load_from_signalfx` iff (a) when the run is unscoped, it carries no scope
tag — when the run is scoped, no scope-tag check is made at all (scope
filtering is delegated to the tag filter sent to the service), and (b) it
carries a `from:` tag whose extracted identity is non-empty; it is then keyed
by that identity.  Stated for detectors whose `from:` tags all extract the
same identity (at most one `from:` tag is the expected shape; otherwise the
set-iteration order of the source would pick an arbitrary one). -/
theorem load_from_signalfx_characterization (scope : Option String) :
    (∀ (dets : List SfxDet) (p : String) (d : SfxDet),
      (p, d) ∈ listOwnedPairs scope dets ↔
        d ∈ dets ∧ byPath scope d.tags = Option.some p) ∧
    (∀ (tags : List String) (p : String),
      (∀ t1 ∈ tags, ∀ t2 ∈ tags,
        pyStartsWith t1 fromTagMarker = true →
        pyStartsWith t2 fromTagMarker = true →
        extractFrom t1 = extractFrom t2) →
      (byPath scope tags = Option.some p ↔
        ((scope = Option.none →
            ∀ t ∈ tags, pyStartsWith t scopeTagMarker = false) ∧
         ∃ t ∈ tags, pyStartsWith t fromTagMarker = true ∧
           extractFrom t = p ∧ ¬ p = ("")))) := by
  constructor
  · intro dets p d
    simp only [listOwnedPairs, List.mem_filterMap, Option.map_eq_some']
    constructor
    · rintro ⟨d', hd', q, hq, heq⟩
      obtain ⟨rfl, rfl⟩ := Prod.mk.injEq .. ▸ And.intro
        (congrArg Prod.fst heq) (congrArg Prod.snd heq)
      exact ⟨hd', hq⟩
    · rintro ⟨hd, hq⟩
      exact ⟨d, hd, p, hq, rfl⟩
  · intro tags p huniq
    rw [byPath_eq]
    by_cases hex : scope.isNone = true ∧
        ∃ t ∈ tags, pyStartsWith t scopeTagMarker = true
    · rw [if_pos hex]
      obtain ⟨hu, t, ht, hst⟩ := hex
      constructor
      · intro h
        cases h
      · rintro ⟨hnone, -⟩
        have := hnone (Option.isNone_iff_eq_none.mp hu) t ht
        rw [hst] at this
        cases this
    · rw [if_neg hex]
      by_cases hfrom : ∃ t ∈ tags, pyStartsWith t fromTagMarker = true
      · obtain ⟨t0, ht0, hf0⟩ := hfrom
        rw [foldl_fromStep_unique tags Option.none t0 ht0 hf0
          (fun t ht hf => huniq t ht t0 ht0 hf hf0)]
        simp only []
        constructor
        · intro h
          by_cases hz : extractFrom t0 = ("")
          · rw [if_pos hz] at h
            cases h
          · rw [if_neg hz] at h
            obtain rfl := (Option.some.injEq .. ▸ h : extractFrom t0 = p)
            refine ⟨?_, t0, ht0, hf0, rfl, hz⟩
            intro hsn t ht
            rw [Bool.eq_false_iff]
            intro hst
            exact hex ⟨Option.isNone_iff_eq_none.mpr hsn, t, ht, hst⟩
        · rintro ⟨-, t, ht, hf, hext, hz⟩
          have : extractFrom t0 = p := by
            rw [← hext, huniq t ht t0 ht0 hf hf0]
          rw [this, if_neg hz]
      · push_neg at hfrom
        rw [foldl_fromStep_none tags Option.none (fun t ht => by
          rw [Bool.eq_false_iff]
          exact hfrom t ht)]
        constructor
        · intro h
          cases h
        · rintro ⟨-, t, ht, hf, -⟩
          exact absurd hf (hfrom t ht)

/-- Witness for (amended) C4: an unscoped run keeps a marker-tagged detector
with one `from:` tag and keys it by the extracted relative path. -/
theorem load_from_signalfx_characterization_witness :
    byPath Option.none [(syncerMarkerTag), ("from:a.yaml")] =
      Option.some ("a.yaml") :=
  ((load_from_signalfx_characterization Option.none).2
    [(syncerMarkerTag), ("from:a.yaml")] ("a.yaml")
    (by decide)).mpr (by decide)

/-! ### Claim C7 — format dispatch -/

/-- Claim C7: `_load_detector` dispatches to the JSON loader iff the content
starts with a brace, to the two-document YAML loader iff it starts with the
document-separator marker (the line `---` with its newline), and otherwise
raises the format error without producing anything; the two prefix tests are
mutually exclusive, so the dispatch is a partition of contents. -/
theorem format_dispatch (jsonParse yamlParse : String → Option Value)
    (contents : String) :
    (pyStartsWith contents ("\x7b") = true →
      dispatchLoad jsonParse yamlParse contents =
        jsonLoad jsonParse contents) ∧
    (pyStartsWith contents ("\x7b") = false →
      pyStartsWith contents ("---\n") = true →
      dispatchLoad jsonParse yamlParse contents =
        yamlLoad yamlParse contents) ∧
    (pyStartsWith contents ("\x7b") = false →
      pyStartsWith contents ("---\n") = false →
      dispatchLoad jsonParse yamlParse contents =
        Except.error (PyErr.valueError ("unknown detector format"))) ∧
    ¬ (pyStartsWith contents ("\x7b") = true ∧
       pyStartsWith contents ("---\n") = true) := by
  refine ⟨?_, ?_, ?_, ?_⟩
  · intro h1
    simp [dispatchLoad, h1]
  · intro h1 h2
    simp [dispatchLoad, h1, h2]
  · intro h1 h2
    simp [dispatchLoad, h1, h2]
  · rintro ⟨h1, h2⟩
    rcases hd : contents.data with - | ⟨c, t⟩ <;>
      simp [pyStartsWith, takeEq, hd] at h1 h2
    rw [h1] at h2
    exact absurd h2.1 (by decide)

/-- Witness for C7: content starting with the separator line goes to the
two-document loader. -/
theorem format_dispatch_witness :
    dispatchLoad (fun _ => Option.none) (fun _ => Option.none) ("---\nx") =
      yamlLoad (fun _ => Option.none) ("---\nx") :=
  (format_dispatch (fun _ => Option.none) (fun _ => Option.none)
    ("---\nx")).2.1 rfl rfl

/-! ### Claim C6 — provenance stamping of loaded files -/

/-- Claim C6: whenever `_load_detector` succeeds, the resulting record's
`lastUpdated` is the file's last-modified time in integer milliseconds, and
its `tags` are exactly the file's own tags — `fileTags`, pinned to the
`tags` field of the record the format dispatch loaded from the file
(defaulting to `[]` when the file has none, as `detector.get('tags', [])`
does), so tags already present in the file are preserved — followed by the
syncer's tags: the fixed ownership marker, the `scope:<scope>` tag exactly
when the run is scoped, and the provenance tag `from:<identity>` for the
file's relative path. -/
theorem load_detector_stamp (scope : Option String)
    (jsonParse yamlParse : String → Option Value)
    (path contents : String) (mtimeMs : Int) (result : Value)
    (h : loadDetector scope jsonParse yamlParse path contents mtimeMs =
      Except.ok result) :
    ∃ (kvs kvs0 : List (String × Value)) (fileTags : List Value),
      dispatchLoad jsonParse yamlParse contents =
        Except.ok (Value.dict kvs0) ∧
      Value.list fileTags = (dictGet kvs0 ("tags")).getD (Value.list []) ∧
      result = Value.dict kvs ∧
      dictGet kvs ("lastUpdated") = Option.some (Value.int mtimeMs) ∧
      dictGet kvs ("tags") = Option.some (Value.list
        (fileTags ++ (syncerTags scope).map Value.str ++
          [Value.str (fromTagMarker ++ path)])) ∧
      syncerTags scope = syncerMarkerTag ::
        (match scope with
         | Option.some s => [scopeTagMarker ++ s]
         | Option.none => []) := by
  unfold loadDetector at h
  cases hdis : dispatchLoad jsonParse yamlParse contents with
  | error e =>
    rw [hdis] at h
    exact Except.noConfusion h
  | ok d =>
    rw [hdis] at h
    cases d with
    | dict kvs0 =>
      simp only [pySetItem, pyGetD] at h
      cases hts : (dictGet (dictSet kvs0 ("lastUpdated")
          (Value.int mtimeMs)) ("tags")).getD (Value.list []) with
      | list ts =>
        rw [hts] at h
        simp only [pySetItem, Except.ok.injEq] at h
        have hfile : Value.list ts =
            (dictGet kvs0 ("tags")).getD (Value.list []) := by
          rw [← hts, dictGet_dictSet_ne _ _ _ _ (by decide)]
        refine ⟨_, kvs0, ts, rfl, hfile, h.symm, ?_, ?_, ?_⟩
        · rw [dictGet_dictSet_ne _ _ _ _ (by decide), dictGet_dictSet_self]
        · rw [dictGet_dictSet_self]
        · cases scope <;> rfl
      | none =>
        rw [hts] at h
        exact Except.noConfusion h
      | bool b =>
        rw [hts] at h
        exact Except.noConfusion h
      | int n =>
        rw [hts] at h
        exact Except.noConfusion h
      | str s =>
        rw [hts] at h
        exact Except.noConfusion h
      | dict kvs1 =>
        rw [hts] at h
        exact Except.noConfusion h
    | none => exact Except.noConfusion h
    | bool b => exact Except.noConfusion h
    | int n => exact Except.noConfusion h
    | str s => exact Except.noConfusion h
    | list xs => exact Except.noConfusion h

/-- Witness for C6: a JSON-encoded detector under scope `t` at identity
`svc/a.yaml`, modified at 5ms, with one tag `keepme` of its own, is stamped
with `lastUpdated` 5 and ends up with `keepme` preserved in front of the
three syncer tags. -/
theorem load_detector_stamp_witness :
    loadDetector (Option.some ("t"))
      (fun _ => Option.some (Value.dict
        [(("name"), Value.str ("A")), (("description"), Value.str ("d")),
         (("tags"), Value.list [Value.str ("keepme")])]))
      (fun _ => Option.none) ("svc/a.yaml") ("\x7b") 5 =
      Except.ok (Value.dict
        [(("name"), Value.str ("A")), (("description"), Value.str ("d")),
         (("tags"), Value.list
           [Value.str ("keepme"), Value.str ("signalfx-detector-syncer"),
            Value.str ("scope:t"), Value.str ("from:svc/a.yaml")]),
         (("lastUpdated"), Value.int 5)]) ∧
    ∃ (kvs kvs0 : List (String × Value)) (fileTags : List Value),
      dispatchLoad
        (fun _ => Option.some (Value.dict
          [(("name"), Value.str ("A")), (("description"), Value.str ("d")),
           (("tags"), Value.list [Value.str ("keepme")])]))
        (fun _ => Option.none) ("\x7b") = Except.ok (Value.dict kvs0) ∧
      Value.list fileTags = (dictGet kvs0 ("tags")).getD (Value.list []) ∧
      (Value.dict
        [(("name"), Value.str ("A")), (("description"), Value.str ("d")),
         (("tags"), Value.list
           [Value.str ("keepme"), Value.str ("signalfx-detector-syncer"),
            Value.str ("scope:t"), Value.str ("from:svc/a.yaml")]),
         (("lastUpdated"), Value.int 5)]) = Value.dict kvs ∧
      dictGet kvs ("lastUpdated") = Option.some (Value.int 5) ∧
      dictGet kvs ("tags") = Option.some (Value.list
        (fileTags ++ (syncerTags (Option.some ("t"))).map Value.str ++
          [Value.str (fromTagMarker ++ ("svc/a.yaml"))])) ∧
      syncerTags (Option.some ("t")) =
        syncerMarkerTag :: [scopeTagMarker ++ ("t")] :=
  ⟨rfl, load_detector_stamp (Option.some ("t"))
    (fun _ => Option.some (Value.dict
      [(("name"), Value.str ("A")), (("description"), Value.str ("d")),
       (("tags"), Value.list [Value.str ("keepme")])]))
    (fun _ => Option.none) ("svc/a.yaml") ("\x7b") 5
    (Value.dict
      [(("name"), Value.str ("A")), (("description"), Value.str ("d")),
       (("tags"), Value.list
         [Value.str ("keepme"), Value.str ("signalfx-detector-syncer"),
          Value.str ("scope:t"), Value.str ("from:svc/a.yaml")]),
       (("lastUpdated"), Value.int 5)]) rfl⟩

/-! ### Claim C9 — two-document loading -/

theorem sda_sep (b : Bool) (c1 c2 c3 : Char) (rest : List Char)
    (h : (b && sepAt (c1 :: c2 :: c3 :: rest)) = true) :
    sda b (c1 :: c2 :: c3 :: rest) =
      ([], (sda false rest).1 :: (sda false rest).2) := by
  conv_lhs => rw [sda.eq_def]
  simp only []
  rw [if_pos h]

theorem sda_nosep (b : Bool) (c : Char) (rest : List Char) (b' : Bool)
    (hc : (c == ('\n')) = b')
    (h : (b && sepAt (c :: rest)) = false) :
    sda b (c :: rest) = ((c :: (sda b' rest).1), (sda b' rest).2) := by
  subst hc
  conv_lhs => rw [sda.eq_def]
  simp only []
  rw [if_neg (by rw [h]; exact Bool.false_ne_true)]

theorem sepAt_of_append (s rest : List Char)
    (hrest : rest.headD ('\n') = ('\n')) (h : sepAt (s ++ rest) = true) :
    sepAt s = true := by
  simp only [sepAt, Bool.and_eq_true, decide_eq_true_eq] at h ⊢
  obtain ⟨h1, h2⟩ := h
  rcases s with - | ⟨a, - | ⟨b, - | ⟨c, s'⟩⟩⟩
  · rcases rest with - | ⟨r, t⟩
    · cases h1
    · simp only [List.headD_cons] at hrest
      subst hrest
      simp only [List.nil_append, List.take_succ_cons] at h1
      exact absurd (List.cons.injEq .. ▸ h1).1 (by decide)
  · rcases rest with - | ⟨r, t⟩
    · cases h1
    · simp only [List.headD_cons] at hrest
      subst hrest
      simp only [List.cons_append, List.nil_append,
        List.take_succ_cons] at h1
      exact absurd ((List.cons.injEq .. ▸ h1).2 : _ = _)
        (by
          intro hh
          exact absurd (List.cons.injEq .. ▸ hh).1 (by decide))
  · rcases rest with - | ⟨r, t⟩
    · simp only [List.cons_append, List.append_nil,
        List.take_succ_cons] at h1
      obtain ⟨-, -, h1⟩ := by
        simpa only [List.cons.injEq] using h1
      cases h1
    · simp only [List.headD_cons] at hrest
      subst hrest
      simp only [List.cons_append, List.take_succ_cons] at h1
      obtain ⟨-, -, h1⟩ := by
        simpa only [List.cons.injEq] using h1
      exact absurd (List.cons.injEq .. ▸ h1).1 (by decide)
  · simp only [List.cons_append, List.take_succ_cons, List.take_zero] at h1
    obtain ⟨ha, hb, hc, -⟩ := by
      simpa only [List.cons.injEq] using h1
    subst ha
    subst hb
    subst hc
    refine ⟨rfl, ?_⟩
    simp only [List.cons_append, List.drop_succ_cons, List.drop_zero] at h2
    cases s' with
    | nil => rfl
    | cons x t =>
      simp only [List.cons_append, List.headD_cons] at h2
      simpa using h2

theorem sda_append (d : List Char) (b : Bool) (rest : List Char)
    (hd : dashFree b d = true) (hrest : rest.headD ('\n') = ('\n')) :
    sda b (d ++ rest) =
      ((d ++ (sda (flagAfter b d) rest).1), (sda (flagAfter b d) rest).2) := by
  induction d generalizing b with
  | nil =>
    simp [flagAfter]
  | cons c d' ih =>
    simp only [dashFree, Bool.and_eq_true, Bool.not_eq_true'] at hd
    obtain ⟨hd1, hd2⟩ := hd
    have hcond : (b && sepAt (c :: (d' ++ rest))) = false := by
      cases hb : b with
      | false => rfl
      | true =>
        rw [hb] at hd1
        simp only [Bool.true_and] at hd1 ⊢
        rw [Bool.eq_false_iff]
        intro hsep
        have hs := sepAt_of_append (c :: d') rest hrest
          (by rw [List.cons_append]; exact hsep)
        rw [hs] at hd1
        cases hd1
    rw [List.cons_append, sda_nosep b c (d' ++ rest) (c == ('\n')) rfl hcond]
    rw [ih (c == ('\n')) hd2]
    have hfa : flagAfter b (c :: d') = flagAfter (c == ('\n')) d' := rfl
    rw [hfa]
    simp [List.cons_append]

theorem pyStrip_cons_space (c : Char) (s : List Char) (h : pyIsSpace c = true) :
    pyStrip (c :: s) = pyStrip s := by
  simp [pyStrip, List.dropWhile_cons, h]

theorem pyStrip_append_space (s : List Char) (c : Char)
    (h : pyIsSpace c = true) :
    pyStrip (s ++ [c]) = pyStrip s := by
  unfold pyStrip
  rw [List.dropWhile_append]
  by_cases he : (s.dropWhile pyIsSpace).isEmpty = true
  · rw [if_pos he]
    rw [List.isEmpty_iff] at he
    rw [he]
    simp [List.dropWhile_cons, h]
  · rw [if_neg he]
    rw [List.reverse_append]
    simp [List.dropWhile_cons, h]

theorem sda_double (d1 d2 : List Char)
    (h1 : dashFree true d1 = true) (h2 : dashFree true d2 = true) :
    sda true (('-') :: ('-') :: ('-') :: ('\n') ::
        (d1 ++ ('\n') :: ('-') :: ('-') :: ('-') :: ('\n') :: d2)) =
      ([], [('\n') :: (d1 ++ [('\n')]), ('\n') :: d2]) := by
  have e2 : sda true d2 = (d2, []) := by
    have e := sda_append d2 true [] h2 rfl
    rw [show sda (flagAfter true d2) [] = (([] : List Char),
      ([] : List (List Char))) from rfl] at e
    rw [List.append_nil] at e
    exact e
  have e3 : sda false (('\n') :: d2) = (('\n') :: d2, []) := by
    rw [sda_nosep false ('\n') d2 true rfl rfl, e2]
  have e4 : sda true (('-') :: ('-') :: ('-') :: ('\n') :: d2) =
      ([], [('\n') :: d2]) := by
    rw [sda_sep true ('-') ('-') ('-') (('\n') :: d2) rfl, e3]
  have e5 : sda (flagAfter true d1)
      (('\n') :: ('-') :: ('-') :: ('-') :: ('\n') :: d2) =
      (('\n') :: [], [('\n') :: d2]) := by
    rw [sda_nosep (flagAfter true d1) ('\n')
      (('-') :: ('-') :: ('-') :: ('\n') :: d2) true rfl
      (by
        rw [show sepAt (('\n') :: ('-') :: ('-') :: ('-') :: ('\n') :: d2) =
          false from rfl]
        exact Bool.and_false _), e4]
  have e6 : sda true (d1 ++ ('\n') :: ('-') :: ('-') :: ('-') :: ('\n') :: d2)
      = (d1 ++ [('\n')], [('\n') :: d2]) := by
    rw [sda_append d1 true (('\n') :: ('-') :: ('-') :: ('-') :: ('\n') :: d2)
      h1 rfl, e5]
  have e7 : sda false (('\n') ::
      (d1 ++ ('\n') :: ('-') :: ('-') :: ('-') :: ('\n') :: d2)) =
      (('\n') :: (d1 ++ [('\n')]), [('\n') :: d2]) := by
    rw [sda_nosep false ('\n')
      (d1 ++ ('\n') :: ('-') :: ('-') :: ('-') :: ('\n') :: d2) true rfl rfl,
      e6]
  rw [sda_sep true ('-') ('-') ('-')
    (('\n') :: (d1 ++ ('\n') :: ('-') :: ('-') :: ('-') :: ('\n') :: d2))
    rfl, e7]

theorem yamlRawLoad_two (parse : String → Option Value) (contents : String)
    (s1 s2 : String) (v : Value)
    (hd : pyDocs contents = [s1, s2]) (hp : parse s1 = Option.some v) :
    yamlRawLoad parse contents = pySetItem v ("programText") (Value.str s2) := by
  unfold yamlRawLoad
  rw [hd]
  simp only [List.get?_cons_zero, List.get?_cons_succ, hp]

/-- Claim C9: loading a two-document content — `---`, a front-matter document
`d1`, a `---` separator line, and a program document `d2`, where neither
document contains a separator line of its own — produces exactly the record
parsed from the (stripped) first document with `programText` set to the
second document verbatim up to a single strip of leading and trailing
whitespace (all internal whitespace preserved). -/
theorem yaml_two_document (parse : String → Option Value) (d1 d2 : List Char)
    (kvs : List (String × Value))
    (h1 : dashFree true d1 = true) (h2 : dashFree true d2 = true)
    (hp : parse (String.mk (pyStrip d1)) = Option.some (Value.dict kvs)) :
    yamlRawLoad parse (String.mk (('-') :: ('-') :: ('-') :: ('\n') ::
        (d1 ++ ('\n') :: ('-') :: ('-') :: ('-') :: ('\n') :: d2))) =
      Except.ok (Value.dict (dictSet kvs ("programText")
        (Value.str (String.mk (pyStrip d2))))) := by
  have hdocs : pyDocs (String.mk (('-') :: ('-') :: ('-') :: ('\n') ::
      (d1 ++ ('\n') :: ('-') :: ('-') :: ('-') :: ('\n') :: d2))) =
      [String.mk (pyStrip d1), String.mk (pyStrip d2)] := by
    unfold pyDocs
    rw [show (String.mk (('-') :: ('-') :: ('-') :: ('\n') ::
      (d1 ++ ('\n') :: ('-') :: ('-') :: ('-') :: ('\n') :: d2))).data =
      (('-') :: ('-') :: ('-') :: ('\n') ::
        (d1 ++ ('\n') :: ('-') :: ('-') :: ('-') :: ('\n') :: d2)) from rfl]
    rw [sda_double d1 d2 h1 h2]
    show [String.mk (pyStrip (('\n') :: (d1 ++ [('\n')]))),
        String.mk (pyStrip (('\n') :: d2))] =
      [String.mk (pyStrip d1), String.mk (pyStrip d2)]
    rw [pyStrip_cons_space ('\n') (d1 ++ [('\n')]) (by decide),
      pyStrip_append_space d1 ('\n') (by decide),
      pyStrip_cons_space ('\n') d2 (by decide)]
  rw [yamlRawLoad_two parse _ _ _ (Value.dict kvs) hdocs hp]
  rfl

/-- Witness for C9 on a concrete two-document file. -/
theorem yaml_two_document_witness :
    dashFree true (("name: x").data) = true ∧
    yamlRawLoad
        (fun _ => Option.some (Value.dict [(("name"), Value.str ("x"))]))
        (String.mk (('-') :: ('-') :: ('-') :: ('\n') ::
          ((("name: x").data) ++ ('\n') :: ('-') :: ('-') :: ('-') ::
            ('\n') :: (("prog()").data)))) =
      Except.ok (Value.dict (dictSet [(("name"), Value.str ("x"))]
        ("programText")
        (Value.str (String.mk (pyStrip (("prog()").data)))))) :=
  ⟨by decide,
    yaml_two_document
      (fun _ => Option.some (Value.dict [(("name"), Value.str ("x"))]))
      (("name: x").data) (("prog()").data)
      [(("name"), Value.str ("x"))] (by decide) (by decide) rfl⟩

end DetectorSyncer
